import Mathlib

/-!
Shallow embedding of the keyword-gatekeeper moderation plugin
(detection engine, configuration resolver, violation ledger / escalation).
String primitives are modelled structurally over `List Char` so that all
definitions reduce in the kernel.
-/

namespace Gatekeeper

/-- `sub` is a leading segment of `l` (char-for-char). -/
def charsLead (sub l : List Char) : Bool :=
  match sub, l with
  | [], _ => true
  | _ :: _, [] => false
  | a :: as, b :: bs => a == b && charsLead as bs

/-- `sub` occurs contiguously inside `l`; mirrors JavaScript `String.includes`. -/
def charsOccur (sub l : List Char) : Bool :=
  match l with
  | [] => sub.isEmpty
  | _ :: bs => charsLead sub l || charsOccur sub bs

/-- JavaScript `haystack.includes(needle)`. -/
def jsIncludes (haystack needle : String) : Bool :=
  charsOccur needle.data haystack.data

/-- JavaScript `s.toLowerCase()` (ASCII-faithful model). -/
def jsToLower (s : String) : String :=
  String.mk (s.data.map Char.toLower)

/-- JavaScript `s.startsWith(t)`. -/
def jsStartsWith (s t : String) : Bool :=
  charsLead t.data s.data

/-- JavaScript `s.endsWith(t)`. -/
def jsEndsWith (s t : String) : Bool :=
  charsLead t.data.reverse s.data.reverse

/-- JavaScript `s.trim()` (common whitespace only). -/
def jsIsSpace (c : Char) : Bool :=
  c == ' ' || c == '\t' || c == '\n' || c == '\r'

def dropLeadSpace : List Char → List Char
  | [] => []
  | c :: cs => if jsIsSpace c then dropLeadSpace cs else c :: cs

def jsTrim (s : String) : String :=
  String.mk (((dropLeadSpace s.data.reverse).reverse |> dropLeadSpace))

/-- Split a char list at every occurrence of separator `c`
(the pieces do not contain `c`; mirrors `String.split` on one char). -/
def splitOnChar (c : Char) : List Char → List (List Char)
  | [] => [[]]
  | x :: xs =>
    let r := splitOnChar c xs
    if x == c then [] :: r
    else
      match r with
      | [] => [[x]]
      | h :: t => (x :: h) :: t

/-! ## Keyword matcher

Embedding of `KeywordHandler.checkKeywords` (src/src/handlers/keyword-handler.ts,
lines 213-268).  The JavaScript regex engine is modelled as an oracle
`regexTest pattern flags text`: `none` models `new RegExp`/`test` throwing
(invalid pattern), `some b` a successful test with result `b`.  When
`useRegex` is false nothing in the `try` block can throw, so that branch is
the plain case-insensitive containment test of the source. -/

def checkKeywords (regexTest : String → String → String → Option Bool)
    (useRegex : Bool) (regexFlags : String) (message : String) :
    List String → Option String
  | [] => none
  | keyword :: rest =>
    if keyword == "" then
      checkKeywords regexTest useRegex regexFlags message rest
    else if useRegex then
      let flags := if regexFlags == "" then "i" else regexFlags
      match regexTest keyword flags message with
      | some true => some keyword
      | some false => checkKeywords regexTest useRegex regexFlags message rest
      | none =>
        -- catch: fall back to plain containment for this rule only
        if jsIncludes (jsToLower message) (jsToLower keyword) then some keyword
        else checkKeywords regexTest useRegex regexFlags message rest
    else
      if jsIncludes (jsToLower message) (jsToLower keyword) then some keyword
      else checkKeywords regexTest useRegex regexFlags message rest

/-! ## Escalation policy

Embedding of the punishment-selection block shared by
`UrlHandler.handleAutoPunishment` (url-handler.ts lines 538-608) and
`KeywordHandler.handleAutoPunishment` (keyword-handler.ts lines 579-661):
the action derived from the current violation count and the configuration.
`kickSucceeds` models the platform kick call's result; a mute of computed
duration is only attempted when the duration is positive. -/

inductive AutoAction where
  | noAction : AutoAction
  | warn : AutoAction
  | mute (seconds : Nat) : AutoAction
  | kick : AutoAction
deriving DecidableEq, Repr

/-- `if (muteDuration > 0)` guard before the mute call. -/
def muteIfPositive (d : Nat) : AutoAction :=
  if 0 < d then AutoAction.mute d else AutoAction.noAction

def escalationTier (violationCount maxViolationCount secondViolationMuteDuration : Nat)
    (kickOnMaxViolation kickSucceeds : Bool) : AutoAction :=
  if violationCount == 1 then AutoAction.warn
  else if 2 ≤ violationCount then
    if violationCount == 2 then
      muteIfPositive secondViolationMuteDuration
    else if maxViolationCount ≤ violationCount then
      if kickOnMaxViolation then
        if kickSucceeds then AutoAction.kick
        else muteIfPositive 3600
      else muteIfPositive 3600
    else
      muteIfPositive (secondViolationMuteDuration * (violationCount - 1))
  else AutoAction.noAction

/-! ## Violation ledger

Embedding of `WarningManager.updateUserPunishmentRecord`
(src/src/handlers/warning-manager.ts lines 204-348) for one
`(userId, guildId)` key.  Timestamps are `Int` milliseconds
(`Date.now()` arithmetic); `punishmentResetHours * 60 * 60 * 1000` is
passed already multiplied out as `resetMs`.  The presentation-only field
`lastTriggerTimeFormatted` is omitted.  JSON (de)serialisation of the
`actionHistory` column is an oracle `HistoryCodec`: `parse` returning
`none` models `JSON.parse` throwing on a corrupt string. -/

structure HistoryEntry where
  time : Int
  keyword : String
  /-- source field name `type`. -/
  kind : String
  action : String
  message : String
deriving DecidableEq, Repr

structure HistoryCodec where
  parse : String → Option (List HistoryEntry)
  ser : List HistoryEntry → String

structure TriggerInfo where
  keyword : String
  /-- source field name `type`. -/
  kind : String
  action : String
  /-- optional in the source; `""` models an absent/empty content (falsy). -/
  messageContent : String
deriving DecidableEq, Repr

structure WarningRecord where
  count : Nat
  lastTriggerTime : Int
  lastTriggerKeyword : String
  lastTriggerType : String
  lastActionType : String
  lastMessageContent : String
  actionHistory : String
deriving DecidableEq, Repr

/-- The fresh row created by `updateUserPunishmentRecord` when no record exists. -/
def emptyWarningRecord : WarningRecord :=
  { count := 0
    lastTriggerTime := 0
    lastTriggerKeyword := ""
    lastTriggerType := "keyword"
    lastActionType := "warn"
    lastMessageContent := ""
    actionHistory := "[]" }

/-- History append with the 10-entry cap:
`history.push(entry); if (history.length > 10) history = history.slice(history.length - 10)`
(warning-manager.ts lines 309-322). -/
def appendHistory (history : List HistoryEntry) (e : HistoryEntry) : List HistoryEntry :=
  let h := history ++ [e]
  if 10 < h.length then h.drop (h.length - 10) else h

def updateUserPunishmentRecord (codec : HistoryCodec)
    (stored : Option WarningRecord) (now resetMs : Int)
    (trigger : Option TriggerInfo) : WarningRecord :=
  let record := stored.getD emptyWarningRecord
  -- reset check: `if (now - record.lastTriggerTime > resetTimeMs)`
  let oldCount : Nat :=
    if resetMs < now - record.lastTriggerTime then 0 else record.count
  -- increment exactly once: `record.count = oldCount + 1`
  let base := { record with count := oldCount + 1, lastTriggerTime := now }
  match trigger with
  | none => base
  | some t =>
    let history := (codec.parse record.actionHistory).getD []
    let entry : HistoryEntry :=
      { time := now, keyword := t.keyword, kind := t.kind, action := t.action
        message := t.messageContent }
    { base with
      lastTriggerKeyword := t.keyword
      lastTriggerType := if t.kind == "" then "keyword" else t.kind
      lastActionType := if t.action == "" then "warn" else t.action
      lastMessageContent :=
        if t.messageContent == "" then record.lastMessageContent else t.messageContent
      actionHistory := codec.ser (appendHistory history entry) }

/-- Fold a sequence of violation timestamps through the ledger update
(`recordViolation` called once per detection event). -/
def recordSeq (codec : HistoryCodec) (resetMs : Int) (trigger : Option TriggerInfo)
    (stored : Option WarningRecord) (times : List Int) : Option WarningRecord :=
  times.foldl
    (fun s t => some (updateUserPunishmentRecord codec s t resetMs trigger)) stored

/-- Same fold, starting from an existing record. -/
def recordSeqFrom (codec : HistoryCodec) (resetMs : Int) (trigger : Option TriggerInfo)
    (r : WarningRecord) (times : List Int) : WarningRecord :=
  times.foldl
    (fun s t => updateUserPunishmentRecord codec (some s) t resetMs trigger) r

/-! ## URL detection (src/src/handlers/url-handler.ts)

The anchored regular expressions of `isLikelyFilename` / `isMediaMessage`
are simple character-class patterns; each is embedded as a structural
predicate over the char list with the same language. -/

def isDigitChar (c : Char) : Bool := '0' ≤ c && c ≤ '9'

/-- `[a-f0-9]` with the `i` flag. -/
def isHexChar (c : Char) : Bool :=
  isDigitChar c || ('a' ≤ c && c ≤ 'f') || ('A' ≤ c && c ≤ 'F')

/-- `[a-z0-9]` with the `i` flag. -/
def isAlnumChar (c : Char) : Bool :=
  isDigitChar c || ('a' ≤ c && c ≤ 'z') || ('A' ≤ c && c ≤ 'Z')

/-- `[\w\-]`. -/
def isWordDashChar (c : Char) : Bool :=
  isAlnumChar c || c == '_' || c == '-'

/-- `\d{1,3}`. -/
def isShortDigits (l : List Char) : Bool :=
  1 ≤ l.length && l.length ≤ 3 && l.all isDigitChar

/-- `^\d{1,3}\.\d{1,3}\.\d{1,3}\.\d{1,3}(?::\d+)?$` (url-handler.ts line 48). -/
def isIpLike (s : String) : Bool :=
  match splitOnChar ':' s.data with
  | [host] =>
    (match splitOnChar '.' host with
     | [a, b, c, d] => isShortDigits a && isShortDigits b && isShortDigits c && isShortDigits d
     | _ => false)
  | [host, port] =>
    (match splitOnChar '.' host with
     | [a, b, c, d] => isShortDigits a && isShortDigits b && isShortDigits c && isShortDigits d
     | _ => false) && 1 ≤ port.length && port.all isDigitChar
  | _ => false

/-- `^[a-f0-9]{n}\.[a-z0-9]{2,4}$/i` with `lo ≤ n ≤ hi`. -/
def isHexDotExt (lo hi : Nat) (s : String) : Bool :=
  match splitOnChar '.' s.data with
  | [stem, ext] =>
    lo ≤ stem.length && stem.length ≤ hi && stem.all isHexChar &&
    2 ≤ ext.length && ext.length ≤ 4 && ext.all isAlnumChar
  | _ => false

/-- `^[\w\-]+\.[a-z0-9]{2,4}$/i` (url-handler.ts line 80). -/
def isShortNameDotExt (s : String) : Bool :=
  match splitOnChar '.' s.data with
  | [stem, ext] =>
    1 ≤ stem.length && stem.all isWordDashChar &&
    2 ≤ ext.length && ext.length ≤ 4 && ext.all isAlnumChar
  | _ => false

def mediaExtensions : List String :=
  [".amr", ".mp3", ".wav", ".ogg", ".flac", ".aac", ".m4a", ".wma", ".mp",
   ".opus", ".mid", ".midi", ".aiff", ".alac", ".silk",
   ".mp4", ".webm", ".mov", ".avi", ".mkv", ".flv", ".rmvb", ".wmv",
   ".jpg", ".jpeg", ".png", ".gif", ".webp", ".bmp", ".svg", ".tif", ".tiff"]

def fileExtensions : List String :=
  [".jpg", ".jpeg", ".png", ".gif", ".webp", ".bmp",
   ".mp4", ".webm", ".mov", ".avi", ".mkv", ".flv",
   ".mp3", ".wav", ".ogg", ".flac", ".aac", ".m4a",
   ".pdf", ".doc", ".docx", ".xls", ".xlsx", ".ppt",
   ".zip", ".rar", ".7z", ".tar", ".gz", ".apk", ".exe"]

/-- `UrlHandler.isLikelyFilename` (url-handler.ts lines 46-95). -/
def isLikelyFilename (url : String) : Bool :=
  if isIpLike url then false
  else if isHexDotExt 32 32 url then true
  else if isHexDotExt 8 40 url && !jsIncludes url "/" then true
  else if mediaExtensions.any (fun ext => jsEndsWith (jsToLower url) ext) then true
  else if isShortNameDotExt url && !jsIncludes url "/" && !jsIncludes url ":" then
    fileExtensions.any (fun ext => jsEndsWith (jsToLower url) ext)
  else false

/-- Built-in always-safe domain list of `checkUrls` (url-handler.ts lines 171-205). -/
def safeWhitelist : List String :=
  ["qq.com", "gtimg.cn", "qpic.cn", "qlogo.cn", "gtimg.com",
   "gchat.qpic.cn", "c2cpicdw.qpic.cn", "p.qpic.cn",
   "nt.qq.com.cn", "qzone.qq.com", "qqmail.com",
   "tencent.com", "weixin.qq.com", "wx.qq.com",
   "myqcloud.com", "tencent-cloud.cn",
   "music.qq.com", "y.qq.com", "music.163.com", "kugou.com",
   "kuwo.cn", "xiami.com", "douban.fm", "music.migu.cn",
   "qianqian.com", "taihe.com",
   "v.qq.com", "video.qq.com", "bilibili.com", "b23.tv",
   "youku.com", "iqiyi.com", "douyin.com", "kuaishou.com",
   "weishi.qq.com", "douyinpic.com", "douyincdn.com",
   "xigua.com", "huoshan.com",
   "sinaimg.cn", "mmbiz.qpic.cn", "wx.qlogo.cn",
   "hdslb.com", "bilivideo.com", "bili.com",
   "baidu.com", "bdstatic.com", "google.com",
   "microsoft.com", "msn.com", "bing.com",
   "weibo.com", "zhihu.com",
   "126.net", "163.com", "netease.com",
   "qiniucdn.com", "qnimg.cn", "qiniup.com",
   "xiaohongshu.com", "xhscdn.com", "xhslink.com"]

/-- The whitelist test applied to one candidate hostname
(url-handler.ts lines 247-255):
`hostname === domain || hostname.endsWith("." + domain) || domain.includes(hostname)`. -/
def isWhitelistedHost (hostname : String) (combinedWhitelist : List String) : Bool :=
  combinedWhitelist.any (fun domain =>
    hostname == domain ||
    jsEndsWith hostname ("." ++ domain) ||
    jsIncludes domain hostname)

/-- Model of `new URL(urlWithProtocol).hostname` for the plain
scheme-and-host URLs the candidate loop builds: strip the scheme, take the
chars before the first `/`, `:`, `?` or `#`, lowercased (WHATWG host
normalisation); userinfo/IPv6 forms are out of scope. -/
def hostTerminator (c : Char) : Bool :=
  c == '/' || c == ':' || c == '?' || c == '#'

def takeHostChars : List Char → List Char
  | [] => []
  | c :: cs => if hostTerminator c then [] else c :: takeHostChars cs

def extractHostname (url : String) : String :=
  let rest :=
    if jsStartsWith url "https://" then url.data.drop 8
    else if jsStartsWith url "http://" then url.data.drop 7
    else url.data
  String.mk ((takeHostChars rest).map Char.toLower)

/-- `?query` portion of a URL (`urlObj.search`), for the parameter check of
`isMediaUrl`; empty when the URL has no `?`. -/
def searchPart (url : String) : String :=
  match splitOnChar '?' url.data with
  | [] => ""
  | [_] => ""
  | _ :: q :: rest => String.mk ('?' :: (q ++ (rest.map (fun r => '?' :: r)).flatten))

def mediaPathPatterns : List String :=
  ["QFace", "/gchatpic_new/", "/c2c-", "/emoji/", "/face/",
   "/faceemotion/", "/chatimg/", "/offpic_new/", "/mmbiz_", "/logo/",
   "/offical/", "/official/", "/image/", "/sticker/",
   "/resource/", "/download", "/thumbnail/", "/profile/",
   "/avatar/", "/qrcode/", "/icon/", "/photo/",
   "/share/", "/static/", "/assets/", "/media/",
   "/uploads/", "/emojis/", "/gif/", "/cdn/",
   "/music/", "/audio/", "/voice/", "/sound/",
   "/video/", "/record/", "/file/", "/doc/"]

def mediaDomainKeywords : List String :=
  ["multimedia", "media", "img", "image", "pic", "photo",
   "static", "assets", "resource", "cdn", "music", "audio",
   "voice", "video", "file", "storage"]

def mediaParamKeywords : List String :=
  ["image=", "img=", "pic=", "photo=", "avatar=", "icon=",
   "audio=", "voice=", "video=", "file=", "record="]

/-- `UrlHandler.isMediaUrl` (url-handler.ts lines 386-431). -/
def isMediaUrl (url hostname : String) : Bool :=
  if mediaPathPatterns.any (fun p => jsIncludes url p) then true
  else if mediaDomainKeywords.any (fun k => jsIncludes hostname k) then true
  else mediaParamKeywords.any (fun p => jsIncludes (searchPart url) p)

/-- The per-candidate loop of `UrlHandler.checkUrls`
(url-handler.ts lines 212-302), over the already extracted, deduplicated
candidate list; `processedDomains` accumulates hostnames already handled.
URL parsing never fails on the scheme-plus-host candidates considered here,
so the recovery branch for malformed candidates (lines 264-298) is not
reached and is not modelled. -/
def checkUrlCandidates (userWhitelist : List String)
    (processedDomains : List String) : List String → Option String
  | [] => none
  | url :: rest =>
    if isLikelyFilename url then
      checkUrlCandidates userWhitelist processedDomains rest
    else
      let urlWithProtocol :=
        if jsStartsWith url "http://" || jsStartsWith url "https://" then url
        else "http://" ++ url
      let hostname := extractHostname urlWithProtocol
      if processedDomains.contains hostname then
        checkUrlCandidates userWhitelist processedDomains rest
      else if isMediaUrl url hostname then
        checkUrlCandidates userWhitelist (hostname :: processedDomains) rest
      else if isWhitelistedHost hostname (userWhitelist ++ safeWhitelist) then
        checkUrlCandidates userWhitelist (hostname :: processedDomains) rest
      else some url

/-! ### Media / share message classification (url-handler.ts lines 305-383). -/

def cqMediaMarkers : List String :=
  ["[CQ:record,", "[CQ:voice,", "[CQ:audio,", "[CQ:image,",
   "[CQ:video,", "[CQ:face,", "[CQ:bface,", "[CQ:file,"]

def plainMediaMarkers : List String :=
  ["[mirai:audio", "[mirai:voice", "[mirai:image", "[mirai:video",
   "[图片]", "[语音]", "[视频]", "[文件]"]

def audioFileExts : List String := ["amr", "mp", "mp3", "silk", "slk", "wav", "wma"]

def imageVideoExts : List String := ["jpg", "jpeg", "png", "gif", "webp", "mp4", "avi", "mov"]

/-- `^[a-f0-9]{32}\.(ext1|ext2|...)$/i` on the trimmed message. -/
def isHashMediaFilename (exts : List String) (s : String) : Bool :=
  match splitOnChar '.' s.data with
  | [stem, ext] =>
    stem.length == 32 && stem.all isHexChar &&
    exts.any (fun e => jsToLower (String.mk ext) == e)
  | _ => false

/-- `UrlHandler.isMediaMessage` (url-handler.ts lines 344-383). -/
def isMediaMessage (message : String) : Bool :=
  if cqMediaMarkers.any (fun m => jsIncludes message m) then true
  else if plainMediaMarkers.any (fun m => jsIncludes message m) then true
  else if isHashMediaFilename audioFileExts (jsTrim message) then true
  else isHashMediaFilename imageVideoExts (jsTrim message)

def shareCardMarkers : List String := ["[CQ:json,", "[CQ:xml,", "[CQ:share,"]

def musicShareMarkers : List String :=
  ["分享了一首歌", "分享了一条音乐", "分享了一个音乐", "分享了一个视频",
   "的音乐", "音乐名:", "歌曲名:", "音乐来自:", "QQ音乐", "网易云音乐",
   "酷狗音乐", "酷我音乐", "喜马拉雅", "分享了一个小程序", "哔哩哔哩"]

/-- `UrlHandler.isMediaOrShareMessage` (url-handler.ts lines 306-341). -/
def isMediaOrShareMessage (message : String) : Bool :=
  if isMediaMessage message then true
  else if shareCardMarkers.any (fun m => jsIncludes message m) then true
  else musicShareMarkers.any (fun m => jsIncludes message m)

/-- Entry of `UrlHandler.checkUrls` (url-handler.ts lines 98-108): the empty
and media/share guards return before any URL extraction.  The remaining
pipeline (HTML-entity preprocessing, plugin-command skip, the three regex
extractions and `checkUrlCandidates`) is abstracted as `scan`, which the
guarded path never reaches. -/
def checkUrls (scan : String → List String → Option String)
    (message : String) (whitelist : List String) : Option String :=
  if message == "" then none
  else if isMediaOrShareMessage message then none
  else scan message whitelist

/-! ## Plugin configuration (src/src/types.ts `Config`) -/

structure PluginConfig where
  keywords : List String
  useRegex : Bool
  regexFlags : String
  /-- source field name `recall` (a reserved word here). -/
  recallEnabled : Bool
  mute : Bool
  muteDuration : Nat
  customMessage : String
  detectUrls : Bool
  urlWhitelist : List String
  urlAction : String
  urlMuteDuration : Nat
  urlCustomMessage : String
  enableAutoPunishment : Bool
  secondViolationMuteDuration : Nat
  maxViolationCount : Nat
  kickOnMaxViolation : Bool
  punishmentResetHours : Nat
  allowUserSelfQuery : Bool
  enableGroupSpecificConfig : Bool
  enabledGroups : List String
  defaultPresets : List String
  autoImportPresets : Bool
  showPresetContent : Bool
  allowCustomPresets : Bool
  enableDebugMode : Bool
deriving DecidableEq, Repr

/-! ## Group configuration resolver (src/src/handlers/group-config-manager.ts) -/

structure GroupConfig where
  guildId : String
  enabled : Bool
  keywords : List String
  customMessage : String
  urlWhitelist : List String
  urlCustomMessage : String
deriving DecidableEq, Repr

/-- The durable `keyword_group_configs` table, one row per `guildId`
(unique key), in row order. -/
abbrev GroupStore := List GroupConfig

def getGroupConfig (store : GroupStore) (guildId : String) : Option GroupConfig :=
  store.find? (fun g => g.guildId == guildId)

/-- `updateGroupConfig` upsert: overwrite the row with this `guildId`,
or create it. -/
def putGroupConfig (store : GroupStore) (g : GroupConfig) : GroupStore :=
  if store.any (fun x => x.guildId == g.guildId) then
    store.map (fun x => if x.guildId == g.guildId then g else x)
  else store ++ [g]

/-- The default override synthesized for a pre-enabled conversation
(group-config-manager.ts lines 245-256 and the create defaults of
`updateGroupConfig`). -/
def defaultGroupConfig (guildId : String) : GroupConfig :=
  { guildId := guildId, enabled := true, keywords := [], customMessage := ""
    urlWhitelist := [], urlCustomMessage := "" }

/-- One step of the keyword-accumulating loop of `addKeywordsBatch`
(group-config-manager.ts lines 427-440): skip blank keywords, skip
duplicates, append new trimmed keywords and record them as successes. -/
def addKwStep (acc : GroupConfig × List String) (kw : String) :
    GroupConfig × List String :=
  if jsTrim kw == "" then acc
  else
    let t := jsTrim kw
    if acc.1.keywords.contains t then acc
    else ({ acc.1 with keywords := acc.1.keywords ++ [t] }, acc.2 ++ [t])

/-- The whole loop; returns the updated override and the newly added keywords. -/
def addKeywordsLoop (g : GroupConfig) (keywords : List String) :
    GroupConfig × List String :=
  keywords.foldl addKwStep (g, [])

/-- `GroupConfigManager.addKeywordsBatch` effect on the store
(group-config-manager.ts lines 391-448): the store is only written when at
least one keyword was new. -/
def addKeywordsBatch (store : GroupStore) (guildId : String)
    (keywords : List String) : GroupStore :=
  let g := (getGroupConfig store guildId).getD (defaultGroupConfig guildId)
  let r := addKeywordsLoop g keywords
  if 0 < r.2.length then putGroupConfig store r.1 else store

/-- Built-in preset keyword packs (group-config-manager.ts lines 467-492);
`none` models `!presets[presetName]`. -/
def presetLookup (presetName : String) : Option (List String) :=
  match presetName with
  | "politics" =>
    some ["习近平", "毛泽东", "六四", "天安门", "共产党",
          "反党", "反革命", "民主运动", "政治迫害", "政治自由"]
  | "adult" =>
    some ["色情", "黄色", "做爱", "约炮", "一夜情",
          "嫖娼", "援交", "自慰", "激情视频", "裸聊"]
  | "gambling" =>
    some ["赌博", "博彩", "押注", "赌场", "彩票",
          "赌钱", "六合彩", "时时彩", "百家乐", "德州扑克"]
  | "spam" =>
    some ["私聊", "广告", "营销", "推广", "低价",
          "微商", "代理", "免费领", "兼职", "刷单"]
  | "scam" =>
    some ["诈骗", "骗钱", "钓鱼", "虚假", "欺骗",
          "假冒", "传销", "非法集资", "资金盘", "庞氏骗局"]
  | "common" =>
    some ["傻逼", "操你妈", "草泥马", "日你妈", "垃圾",
          "废物", "狗东西", "滚蛋", "白痴", "贱人"]
  | _ => none

/-- `GroupConfigManager.importPresetKeywords`
(group-config-manager.ts lines 457-508). -/
def importPresetKeywords (store : GroupStore) (guildId presetName : String) :
    GroupStore :=
  match presetLookup presetName with
  | none => store
  | some keywords => addKeywordsBatch store guildId keywords

/-- The pure merge step of `getMergedConfig`
(group-config-manager.ts lines 270-297). -/
def mergeGroupConfig (globalConfig : PluginConfig)
    (groupConfig : Option GroupConfig) : PluginConfig :=
  match groupConfig with
  | none => globalConfig
  | some g =>
    if !g.enabled then globalConfig
    else
      let m := globalConfig
      let m := if 0 < g.keywords.length then { m with keywords := g.keywords } else m
      let m := if g.customMessage == "" then m else { m with customMessage := g.customMessage }
      let m := if 0 < g.urlWhitelist.length then { m with urlWhitelist := g.urlWhitelist } else m
      let m := if g.urlCustomMessage == "" then m else { m with urlCustomMessage := g.urlCustomMessage }
      m

/-- The pre-enabled synthesis side effect of `getMergedConfig`
(group-config-manager.ts lines 242-268): when the conversation is in the
pre-enabled list and has no stored override, create the default override
and, when configured, auto-import every default preset pack. -/
def synthStore (globalConfig : PluginConfig) (guildId : String)
    (store : GroupStore) : GroupStore :=
  if globalConfig.enabledGroups.contains guildId
      && (getGroupConfig store guildId).isNone then
    let created := putGroupConfig store (defaultGroupConfig guildId)
    if globalConfig.autoImportPresets && 0 < globalConfig.defaultPresets.length then
      globalConfig.defaultPresets.foldl
        (fun s p => importPresetKeywords s guildId p) created
    else created
  else store

/-- `GroupConfigManager.getMergedConfig`
(group-config-manager.ts lines 230-297) as a state transition on the
override store: returns the effective configuration and the store after the
pre-enabled synthesis / auto-import side effect. -/
def getMergedConfig (globalConfig : PluginConfig) (guildId : String)
    (store : GroupStore) : PluginConfig × GroupStore :=
  if !globalConfig.enableGroupSpecificConfig then (globalConfig, store)
  else
    let store1 := synthStore globalConfig guildId store
    (mergeGroupConfig globalConfig (getGroupConfig store1 guildId), store1)

/-! ## URL auto-punishment transition (url-handler.ts lines 434-632)

State transition on the one `(userId, guildId)` warning record for a
message already classified as a URL violation, with the platform calls
(`checkBotPermission`, `kickUser`, `muteUser`) modelled as boolean
oracles.  Message recall does not touch the record and is omitted. -/

/-- Ledger effect of `queryUserWarningRecord`
(warning-manager.ts lines 356-506): creates an empty row when none exists,
and resets an expired row at read time.  The row created here leaves the
text columns at their empty column defaults. -/
def queryRecordEffect (stored : Option WarningRecord) (now resetMs : Int) :
    Option WarningRecord :=
  match stored with
  | none =>
    some { count := 0, lastTriggerTime := 0, lastTriggerKeyword := ""
           lastTriggerType := "", lastActionType := "", lastMessageContent := ""
           actionHistory := "" }
  | some r =>
    if r.lastTriggerTime == 0 then some r
    else if resetMs < now - r.lastTriggerTime then
      some { r with count := 0, lastTriggerTime := 0 }
    else some r

/-- The mute leg shared by the `violationCount` branches: attempt the mute
when the computed duration is positive; on success the action is recorded
through a second `updateUserPunishmentRecord` call
(url-handler.ts lines 596-607 and 611-623). -/
def urlMuteStep (codec : HistoryCodec) (s : Option WarningRecord)
    (now resetMs : Int) (trig : TriggerInfo) (muteDuration : Nat)
    (muteSucceeds : Bool) : Option WarningRecord :=
  if 0 < muteDuration then
    if muteSucceeds then
      some (updateUserPunishmentRecord codec s now resetMs
        (some { trig with action := "mute" }))
    else s
  else s

/-- `UrlHandler.handleAutoPunishment` (url-handler.ts lines 491-632),
restricted to its effect on the stored warning record. -/
def handleAutoPunishmentUrl (codec : HistoryCodec) (config : PluginConfig)
    (hasBotPermission kickSucceeds muteSucceeds : Bool)
    (stored : Option WarningRecord) (now resetMs : Int)
    (matchedUrl messageContent : String) : Option WarningRecord :=
  -- beforeRecord query (line 496)
  let s0 := queryRecordEffect stored now resetMs
  let trig : TriggerInfo :=
    { keyword := matchedUrl, kind := "url", action := "warn"
      messageContent := messageContent }
  -- the count increment for this detection event (line 500)
  let r1 := updateUserPunishmentRecord codec s0 now resetMs (some trig)
  let violationCount := r1.count
  -- afterRecord query (line 514)
  let s1 := queryRecordEffect (some r1) now resetMs
  if !hasBotPermission then s1
  else if violationCount == 1 then s1
  else if 2 ≤ violationCount then
    if violationCount == 2 then
      urlMuteStep codec s1 now resetMs trig config.secondViolationMuteDuration muteSucceeds
    else if config.maxViolationCount ≤ violationCount then
      if config.kickOnMaxViolation then
        if kickSucceeds then
          -- the kick is recorded through updateUserPunishmentRecord (line 565)
          some (updateUserPunishmentRecord codec s1 now resetMs
            (some { trig with action := "kick" }))
        else urlMuteStep codec s1 now resetMs trig 3600 muteSucceeds
      else urlMuteStep codec s1 now resetMs trig 3600 muteSucceeds
    else
      urlMuteStep codec s1 now resetMs trig
        (config.secondViolationMuteDuration * (violationCount - 1)) muteSucceeds
  else s1

/-! ## Concrete fixtures used by the closed-form theorems and witnesses -/

/-- Codec fixture whose parse always succeeds with an empty history. -/
def plainCodec : HistoryCodec := { parse := fun _ => some [], ser := fun _ => "[]" }

/-- Codec fixture whose parse always fails (corrupt stored JSON). -/
def corruptCodec : HistoryCodec := { parse := fun _ => none, ser := fun _ => "[]" }

/-- Plugin-configuration fixture (schema defaults with group config enabled
for `g1` and auto-punishment on). -/
def sampleGlobalConfig : PluginConfig :=
  { keywords := ["spam"], useRegex := false, regexFlags := "i", recallEnabled := true
    mute := true, muteDuration := 300, customMessage := "cm", detectUrls := true
    urlWhitelist := [], urlAction := "both", urlMuteDuration := 300
    urlCustomMessage := "um", enableAutoPunishment := true
    secondViolationMuteDuration := 60, maxViolationCount := 3
    kickOnMaxViolation := true, punishmentResetHours := 24
    allowUserSelfQuery := true, enableGroupSpecificConfig := true
    enabledGroups := ["g1"], defaultPresets := ["common"], autoImportPresets := true
    showPresetContent := true, allowCustomPresets := true, enableDebugMode := false }

/-- Group-override fixture for conversation `g1`. -/
def sampleOverride : GroupConfig :=
  { guildId := "g1", enabled := true, keywords := ["badword"], customMessage := ""
    urlWhitelist := [], urlCustomMessage := "group url msg" }

/-- Trigger fixture. -/
def sampleTrigger : TriggerInfo :=
  { keyword := "kw", kind := "keyword", action := "warn", messageContent := "m" }

/-- A stored record whose `actionHistory` column is not valid JSON. -/
def brokenRecord : WarningRecord :=
  { emptyWarningRecord with actionHistory := "\x7bcorrupt", count := 2, lastTriggerTime := 90 }

end Gatekeeper

namespace Gatekeeper

/-! # Helper lemmas -/

/-- Appending one entry to the last-ten suffix yields the last-ten suffix of
the extended list. -/
theorem appendHistory_drop (l : List HistoryEntry) (e : HistoryEntry) :
    appendHistory (l.drop (l.length - 10)) e =
      (l ++ [e]).drop ((l ++ [e]).length - 10) := by
  unfold appendHistory
  by_cases h : l.length ≤ 9
  · have h0 : l.length - 10 = 0 := by omega
    rw [h0, List.drop_zero]
    have h2 : ¬ 10 < (l ++ [e]).length := by simp; omega
    rw [if_neg h2]
    have h1 : (l ++ [e]).length - 10 = 0 := by simp; omega
    rw [h1, List.drop_zero]
  · have h10 : 10 ≤ l.length := by omega
    have hlen : (l.drop (l.length - 10) ++ [e]).length = 11 := by
      simp [List.length_drop]; omega
    have hcond : 10 < (l.drop (l.length - 10) ++ [e]).length := by omega
    rw [if_pos hcond, hlen]
    have hd1 : (l.drop (l.length - 10) ++ [e]).drop 1
        = (l.drop (l.length - 10)).drop 1 ++ [e] := by
      refine List.drop_append_of_le_length ?_
      simp [List.length_drop]; omega
    have hd2 : (l.drop (l.length - 10)).drop 1 = l.drop (l.length - 9) := by
      rw [List.drop_drop]; congr 1; omega
    have hd3 : (l ++ [e]).length - 10 = l.length - 9 := by simp
    rw [show (11 : Nat) - 10 = 1 by rfl, hd1, hd2, hd3]
    exact (List.drop_append_of_le_length (by omega)).symm

theorem updateRecord_count (codec : HistoryCodec) (stored : Option WarningRecord)
    (now resetMs : Int) (trigger : Option TriggerInfo) :
    (updateUserPunishmentRecord codec stored now resetMs trigger).count =
      (if resetMs < now - (stored.getD emptyWarningRecord).lastTriggerTime then 0
       else (stored.getD emptyWarningRecord).count) + 1 := by
  cases trigger <;> simp [updateUserPunishmentRecord]

theorem updateRecord_time (codec : HistoryCodec) (stored : Option WarningRecord)
    (now resetMs : Int) (trigger : Option TriggerInfo) :
    (updateUserPunishmentRecord codec stored now resetMs trigger).lastTriggerTime = now := by
  cases trigger <;> simp [updateUserPunishmentRecord]

end Gatekeeper

namespace Gatekeeper

/-! # Claim theorems -/

/-- C8: for every sequence of recorded violations the stored action history
never holds more than 10 entries, and it is exactly the most recent ≤ 10
entries in insertion order — appending an eleventh entry evicts the oldest
first (FIFO). -/
theorem history_capped_fifo (entries : List HistoryEntry) :
    (entries.foldl appendHistory []).length ≤ 10 ∧
    entries.foldl appendHistory [] = entries.drop (entries.length - 10) := by
  induction entries using List.reverseRecOn with
  | nil => simp
  | append_singleton es e ih =>
    rw [List.foldl_append, List.foldl_cons, List.foldl_nil, ih.2, appendHistory_drop]
    refine ⟨?_, rfl⟩
    rw [List.length_drop]
    omega

/-- C2 counterexample: with the schema-permitted configuration
`maxViolationCount = 2` and `kickOnMax = true`, the second violation reaches
the claimed kick tier `count = maxViolationCount`, yet the code selects the
`count = 2` mute branch first, so the outcome is a mute of
`secondViolationMuteSeconds`, not a kick. -/
theorem escalation_no_kick_at_max_two :
    escalationTier 2 2 60 true true = AutoAction.mute 60 ∧
    AutoAction.mute 60 ≠ AutoAction.kick := by decide

/-- C2 (amended): for configurations with `maxViolationCount ≥ 3` and a
positive `secondViolationMuteSeconds`, the escalation outcome is the pure
function of the claim: count 1 warns; count 2 mutes for
`secondViolationMuteSeconds`; count = maxViolationCount kicks when
`kickOnMax` and the kick succeeds, mutes 3600 s when `kickOnMax` is false,
and mutes 3600 s as fallback when the kick fails; intermediate counts mute
for `secondViolationMuteSeconds * (count - 1)`. -/
theorem escalation_pure_cases (maxViolation secondMute n : Nat)
    (kickOnMax kickSucceeds : Bool)
    (hmax : 3 ≤ maxViolation) (hsec : 0 < secondMute) :
    escalationTier 1 maxViolation secondMute kickOnMax kickSucceeds = AutoAction.warn ∧
    escalationTier 2 maxViolation secondMute kickOnMax kickSucceeds
      = AutoAction.mute secondMute ∧
    escalationTier maxViolation maxViolation secondMute true true = AutoAction.kick ∧
    escalationTier maxViolation maxViolation secondMute false kickSucceeds
      = AutoAction.mute 3600 ∧
    escalationTier maxViolation maxViolation secondMute true false
      = AutoAction.mute 3600 ∧
    (2 < n → n < maxViolation →
      escalationTier n maxViolation secondMute kickOnMax kickSucceeds
        = AutoAction.mute (secondMute * (n - 1))) := by
  have hm1 : (maxViolation == 1) = false := by simp; omega
  have hm2 : (maxViolation == 2) = false := by simp; omega
  have hm2le : 2 ≤ maxViolation := by omega
  refine ⟨?_, ?_, ?_, ?_, ?_, ?_⟩
  · simp [escalationTier]
  · simp [escalationTier, muteIfPositive, hsec]
  · simp [escalationTier, hm1, hm2, hm2le]
  · simp [escalationTier, hm1, hm2, hm2le, muteIfPositive]
  · simp [escalationTier, hm1, hm2, hm2le, muteIfPositive]
  · intro h2 hlt
    have hn1 : (n == 1) = false := by simp; omega
    have hn2 : (n == 2) = false := by simp; omega
    have hn2le : 2 ≤ n := by omega
    have hnmax : ¬ maxViolation ≤ n := by omega
    have hpos : 0 < secondMute * (n - 1) := Nat.mul_pos hsec (by omega)
    simp [escalationTier, hn1, hn2, hn2le, hnmax, muteIfPositive, hpos]

/-- C2 witness: the amended escalation table evaluated at
`maxViolationCount = 5`, `secondViolationMuteSeconds = 60`. -/
theorem escalation_pure_cases_witness :
    escalationTier 1 5 60 true true = AutoAction.warn ∧
    escalationTier 2 5 60 true true = AutoAction.mute 60 ∧
    escalationTier 5 5 60 true true = AutoAction.kick ∧
    escalationTier 5 5 60 false true = AutoAction.mute 3600 ∧
    escalationTier 5 5 60 true false = AutoAction.mute 3600 ∧
    (2 < 4 → 4 < 5 → escalationTier 4 5 60 true true = AutoAction.mute (60 * (4 - 1))) :=
  escalation_pure_cases 5 60 4 true true (by decide) (by decide)

/-- C4: when the regex engine raises on a rule's pattern (compile or match
error), `checkKeywords` does not propagate the error: that rule alone
degrades to case-insensitive substring containment of the literal pattern
text, and on no match the scan continues with the remaining rules. -/
theorem checkKeywords_invalid_regex_fallback
    (regexTest : String → String → String → Option Bool)
    (regexFlags message keyword : String) (rest : List String)
    (hne : keyword ≠ "")
    (hfail : regexTest keyword (if regexFlags == "" then "i" else regexFlags) message
      = none) :
    checkKeywords regexTest true regexFlags message (keyword :: rest) =
      (if jsIncludes (jsToLower message) (jsToLower keyword) then some keyword
       else checkKeywords regexTest true regexFlags message rest) := by
  have h : (keyword == "") = false := by simp [hne]
  simp only [checkKeywords, h, Bool.false_eq_true, if_false, if_true, hfail]

/-- C4 witness: the unbalanced pattern `(now)`, rejected by the oracle, falls
back to containment and matches literally. -/
theorem checkKeywords_invalid_regex_fallback_witness :
    checkKeywords (fun _ _ _ => none) true "i" "Call me (now)" ["(now)", "x"] =
      (if jsIncludes (jsToLower "Call me (now)") (jsToLower "(now)") then some "(now)"
       else checkKeywords (fun _ _ _ => none) true "i" "Call me (now)" ["x"]) :=
  checkKeywords_invalid_regex_fallback (fun _ _ _ => none) "i" "Call me (now)" "(now)"
    ["x"] (by decide) rfl

/-- C5: under the URL whitelist rule with the entry `example.com`, the
candidate host `sub.example.com` is excluded from violation, the candidate
host `example.com` is excluded, and the unrelated host `example.org` is not
excluded and is returned as the violation. -/
theorem url_whitelist_examples :
    checkUrlCandidates ["example.com"] [] ["sub.example.com"] = none ∧
    checkUrlCandidates ["example.com"] [] ["example.com"] = none ∧
    checkUrlCandidates ["example.com"] [] ["example.org"] = some "example.org" ∧
    isWhitelistedHost "sub.example.com" ["example.com"] = true ∧
    isWhitelistedHost "example.com" ["example.com"] = true ∧
    isWhitelistedHost "example.org" ["example.com"] = false := by decide

/-- C9 counterexample: the media-marker-only text `[图片]` is classified as a
media/share message, yet with the configured keyword `图片` the keyword
matcher still returns a keyword verdict — the keyword path performs no
media-marker skip, so such a text can produce a keyword verdict. -/
theorem media_marker_keyword_verdict :
    isMediaOrShareMessage "[图片]" = true ∧
    checkKeywords (fun _ _ _ => none) false "i" "[图片]" ["图片"] = some "图片" ∧
    (some "图片" : Option String) ≠ none := by decide

/-- C9 (amended): a message classified as a media or share message never
produces a URL verdict (`checkUrls` returns before any URL extraction); the
keyword engine is not media-aware, so a keyword verdict is avoided only when
no configured keyword matches the marker text. -/
theorem media_message_no_url_verdict
    (scan : String → List String → Option String)
    (message : String) (whitelist : List String)
    (hmedia : isMediaOrShareMessage message = true) :
    checkUrls scan message whitelist = none := by
  unfold checkUrls
  rw [hmedia]
  split <;> rfl

/-- C9 witness: a voice placeholder produces no URL verdict. -/
theorem media_message_no_url_verdict_witness :
    checkUrls (fun _ _ => some "x") "[语音]" [] = none :=
  media_message_no_url_verdict (fun _ _ => some "x") "[语音]" [] (by decide)

/-- C10: when the stored `actionHistory` is not valid JSON, recording a new
violation still succeeds — the corrupt history is replaced by the empty list
before the new entry is appended, and the count increment, trigger time and
trigger info updates all take effect. -/
theorem corrupt_history_recovery (codec : HistoryCodec) (r : WarningRecord)
    (now resetMs : Int) (t : TriggerInfo)
    (hcorrupt : codec.parse r.actionHistory = none) :
    (updateUserPunishmentRecord codec (some r) now resetMs (some t)).actionHistory =
      codec.ser [⟨now, t.keyword, t.kind, t.action, t.messageContent⟩] ∧
    (updateUserPunishmentRecord codec (some r) now resetMs (some t)).count =
      (if resetMs < now - r.lastTriggerTime then 0 else r.count) + 1 ∧
    (updateUserPunishmentRecord codec (some r) now resetMs (some t)).lastTriggerTime
      = now ∧
    (updateUserPunishmentRecord codec (some r) now resetMs (some t)).lastTriggerKeyword
      = t.keyword := by
  refine ⟨?_, ?_, ?_, ?_⟩ <;>
    simp [updateUserPunishmentRecord, hcorrupt, appendHistory]

/-- C10 witness: a record with the corrupt column `{corrupt` still accepts a
new violation; the history restarts from the new entry alone. -/
theorem corrupt_history_recovery_witness :
    (updateUserPunishmentRecord corruptCodec (some brokenRecord) 100 50
        (some sampleTrigger)).actionHistory =
      corruptCodec.ser [⟨100, sampleTrigger.keyword, sampleTrigger.kind,
        sampleTrigger.action, sampleTrigger.messageContent⟩] ∧
    (updateUserPunishmentRecord corruptCodec (some brokenRecord) 100 50
        (some sampleTrigger)).count =
      (if (50 : Int) < 100 - brokenRecord.lastTriggerTime then 0
       else brokenRecord.count) + 1 ∧
    (updateUserPunishmentRecord corruptCodec (some brokenRecord) 100 50
        (some sampleTrigger)).lastTriggerTime = 100 ∧
    (updateUserPunishmentRecord corruptCodec (some brokenRecord) 100 50
        (some sampleTrigger)).lastTriggerKeyword = sampleTrigger.keyword :=
  corrupt_history_recovery corruptCodec brokenRecord 100 50 sampleTrigger rfl

/-- C1: in the URL auto-punishment path, a single triggering message whose
punishment (here a successful mute at violation level 2) is recorded in a
second write increments the stored count twice — starting from count 1 the
stored count becomes 3, not the 2 the claim requires — because the second
write goes through the incrementing `updateUserPunishmentRecord` instead of
a type-only update. -/
theorem url_auto_punishment_double_increment :
    (handleAutoPunishmentUrl plainCodec sampleGlobalConfig true true true
        (some { emptyWarningRecord with count := 1 }) 5 1000 "evil.example" "msg").map
      (fun r => r.count) = some 3 ∧
    (some 3 : Option Nat) ≠ some 2 := by decide

end Gatekeeper

namespace Gatekeeper

theorem recordSeq_some (codec : HistoryCodec) (resetMs : Int)
    (trigger : Option TriggerInfo) :
    ∀ (ts : List Int) (r : WarningRecord),
      recordSeq codec resetMs trigger (some r) ts
        = some (recordSeqFrom codec resetMs trigger r ts) := by
  intro ts
  induction ts with
  | nil => intro r; rfl
  | cons t ts ih =>
    intro r
    simp only [recordSeq, recordSeqFrom, List.foldl_cons] at ih ⊢
    exact ih _

/-- Within the reset window, each update adds exactly one to the count and
moves the trigger time to the call's timestamp. -/
theorem recordSeqFrom_within_window (codec : HistoryCodec) (resetMs : Int)
    (trigger : Option TriggerInfo) :
    ∀ (ts : List Int) (r : WarningRecord),
      List.Chain (fun a b => b - a ≤ resetMs) r.lastTriggerTime ts →
      (recordSeqFrom codec resetMs trigger r ts).count = r.count + ts.length ∧
      (recordSeqFrom codec resetMs trigger r ts).lastTriggerTime
        = ts.getLastD r.lastTriggerTime := by
  intro ts
  induction ts with
  | nil => intro r _; simp [recordSeqFrom]
  | cons t ts ih =>
    intro r h
    rw [List.chain_cons] at h
    obtain ⟨hrt, hchain⟩ := h
    have hcount : (updateUserPunishmentRecord codec (some r) t resetMs trigger).count
        = r.count + 1 := by
      rw [updateRecord_count]
      simp only [Option.getD_some]
      rw [if_neg (by omega)]
    have htime := updateRecord_time codec (some r) t resetMs trigger
    have hch2 : List.Chain (fun a b => b - a ≤ resetMs)
        (updateUserPunishmentRecord codec (some r) t resetMs trigger).lastTriggerTime
        ts := by
      rw [htime]; exact hchain
    obtain ⟨ihc, iht⟩ := ih _ hch2
    constructor
    · simp only [recordSeqFrom, List.foldl_cons] at ihc ⊢
      rw [ihc, hcount, List.length_cons]
      omega
    · simp only [recordSeqFrom, List.foldl_cons] at iht ⊢
      rw [iht, htime, List.getLastD_cons]

/-- C3: starting with no record, N violations recorded at timestamps that
each stay within the reset window of the previous one yield a stored count
of exactly N, and one further violation recorded after the reset window has
elapsed since the last trigger yields a count of 1, not N + 1 (the count is
reset to zero at write time before the increment). -/
theorem record_violation_count_reset (codec : HistoryCodec) (resetMs : Int)
    (trigger : Option TriggerInfo) (t0 : Int) (ts : List Int) (tLate : Int)
    (hchain : List.Chain (fun a b => b - a ≤ resetMs) t0 ts)
    (hlate : resetMs < tLate - ts.getLastD t0) :
    ∃ r : WarningRecord,
      recordSeq codec resetMs trigger none (t0 :: ts) = some r ∧
      r.count = (t0 :: ts).length ∧
      (updateUserPunishmentRecord codec (some r) tLate resetMs trigger).count = 1 := by
  set r0 := updateUserPunishmentRecord codec none t0 resetMs trigger with hr0
  have hc0 : r0.count = 1 := by
    rw [hr0, updateRecord_count]
    simp [emptyWarningRecord]
  have ht0 : r0.lastTriggerTime = t0 := by
    rw [hr0]; exact updateRecord_time codec none t0 resetMs trigger
  have hch : List.Chain (fun a b => b - a ≤ resetMs) r0.lastTriggerTime ts := by
    rw [ht0]; exact hchain
  obtain ⟨hcnt, htim⟩ := recordSeqFrom_within_window codec resetMs trigger ts r0 hch
  refine ⟨recordSeqFrom codec resetMs trigger r0 ts, ?_, ?_, ?_⟩
  · simp only [recordSeq, List.foldl_cons]
    exact recordSeq_some codec resetMs trigger ts r0
  · rw [hcnt, hc0, List.length_cons]
    omega
  · rw [updateRecord_count]
    simp only [Option.getD_some]
    rw [htim, ht0, if_pos hlate]

/-- C3 witness: two violations at times 0 and 5 ms inside a 1000 ms window
count to 2; a further violation at 2000 ms counts back to 1. -/
theorem record_violation_count_reset_witness :
    ∃ r : WarningRecord,
      recordSeq plainCodec 1000 none none ((0 : Int) :: [5]) = some r ∧
      r.count = ((0 : Int) :: [5]).length ∧
      (updateUserPunishmentRecord plainCodec (some r) 2000 1000 none).count = 1 :=
  record_violation_count_reset plainCodec 1000 none 0 [5] 2000
    (List.Chain.cons (by decide) List.Chain.nil) (by decide)

end Gatekeeper

namespace Gatekeeper

/-- C6: for a conversation with a stored group override (and the
group-config feature globally enabled): when the override has
`enabled = false` the resolver returns the global configuration verbatim;
when `enabled = true` it returns a copy of the global configuration in
which `keywords` and `urlWhitelist` are fully replaced by the override's
lists exactly when those are non-empty, `customMessage` and
`urlCustomMessage` are overwritten exactly when non-empty, and every other
field keeps its global value. -/
theorem resolver_override_semantics (global : PluginConfig) (store : GroupStore)
    (guildId : String) (g : GroupConfig)
    (henable : global.enableGroupSpecificConfig = true)
    (hg : getGroupConfig store guildId = some g) :
    (g.enabled = false → (getMergedConfig global guildId store).1 = global) ∧
    (g.enabled = true →
      (getMergedConfig global guildId store).1.keywords
        = (if 0 < g.keywords.length then g.keywords else global.keywords) ∧
      (getMergedConfig global guildId store).1.customMessage
        = (if g.customMessage == "" then global.customMessage else g.customMessage) ∧
      (getMergedConfig global guildId store).1.urlWhitelist
        = (if 0 < g.urlWhitelist.length then g.urlWhitelist else global.urlWhitelist) ∧
      (getMergedConfig global guildId store).1.urlCustomMessage
        = (if g.urlCustomMessage == "" then global.urlCustomMessage
           else g.urlCustomMessage) ∧
      (getMergedConfig global guildId store).1.useRegex = global.useRegex ∧
      (getMergedConfig global guildId store).1.regexFlags = global.regexFlags ∧
      (getMergedConfig global guildId store).1.recallEnabled = global.recallEnabled ∧
      (getMergedConfig global guildId store).1.mute = global.mute ∧
      (getMergedConfig global guildId store).1.muteDuration = global.muteDuration ∧
      (getMergedConfig global guildId store).1.detectUrls = global.detectUrls ∧
      (getMergedConfig global guildId store).1.urlAction = global.urlAction ∧
      (getMergedConfig global guildId store).1.urlMuteDuration
        = global.urlMuteDuration ∧
      (getMergedConfig global guildId store).1.enableAutoPunishment
        = global.enableAutoPunishment ∧
      (getMergedConfig global guildId store).1.secondViolationMuteDuration
        = global.secondViolationMuteDuration ∧
      (getMergedConfig global guildId store).1.maxViolationCount
        = global.maxViolationCount ∧
      (getMergedConfig global guildId store).1.kickOnMaxViolation
        = global.kickOnMaxViolation ∧
      (getMergedConfig global guildId store).1.punishmentResetHours
        = global.punishmentResetHours ∧
      (getMergedConfig global guildId store).1.allowUserSelfQuery
        = global.allowUserSelfQuery ∧
      (getMergedConfig global guildId store).1.enableGroupSpecificConfig
        = global.enableGroupSpecificConfig ∧
      (getMergedConfig global guildId store).1.enabledGroups = global.enabledGroups ∧
      (getMergedConfig global guildId store).1.defaultPresets
        = global.defaultPresets ∧
      (getMergedConfig global guildId store).1.autoImportPresets
        = global.autoImportPresets ∧
      (getMergedConfig global guildId store).1.showPresetContent
        = global.showPresetContent ∧
      (getMergedConfig global guildId store).1.allowCustomPresets
        = global.allowCustomPresets ∧
      (getMergedConfig global guildId store).1.enableDebugMode
        = global.enableDebugMode) := by
  have hres : (getMergedConfig global guildId store).1
      = mergeGroupConfig global (some g) := by
    simp [getMergedConfig, synthStore, henable, hg]
  rw [hres]
  constructor
  · intro hdis
    simp [mergeGroupConfig, hdis]
  · intro hen
    simp only [mergeGroupConfig, hen, Bool.not_true, Bool.false_eq_true, if_false]
    split_ifs <;> simp_all

/-- C6 witness: the fixture override replaces `keywords` and
`urlCustomMessage` and leaves the empty `customMessage` at the global
value. -/
theorem resolver_override_semantics_witness :
    (getMergedConfig sampleGlobalConfig "g1" [sampleOverride]).1.keywords
      = ["badword"] ∧
    (getMergedConfig sampleGlobalConfig "g1" [sampleOverride]).1.customMessage
      = sampleGlobalConfig.customMessage ∧
    (getMergedConfig sampleGlobalConfig "g1" [sampleOverride]).1.urlCustomMessage
      = "group url msg" := by
  obtain ⟨-, h⟩ := resolver_override_semantics sampleGlobalConfig [sampleOverride]
    "g1" sampleOverride rfl (by decide)
  obtain ⟨hk, hc, hw, hu, -⟩ := h rfl
  refine ⟨?_, ?_, ?_⟩
  · rw [hk]; decide
  · rw [hc]; decide
  · rw [hu]; decide

end Gatekeeper

namespace Gatekeeper

theorem addKwStep_guildId (acc : GroupConfig × List String) (kw : String) :
    (addKwStep acc kw).1.guildId = acc.1.guildId := by
  simp only [addKwStep]
  split_ifs <;> rfl

theorem addKeywordsFold_guildId :
    ∀ (ks : List String) (acc : GroupConfig × List String),
      (ks.foldl addKwStep acc).1.guildId = acc.1.guildId := by
  intro ks
  induction ks with
  | nil => intro acc; rfl
  | cons k ks ih =>
    intro acc
    rw [List.foldl_cons, ih, addKwStep_guildId]

theorem find_replace_eq_some :
    ∀ (store : GroupStore) (g : GroupConfig),
      store.any (fun x => x.guildId == g.guildId) = true →
      (store.map (fun x => if x.guildId == g.guildId then g else x)).find?
        (fun x => x.guildId == g.guildId) = some g := by
  intro store g
  induction store with
  | nil => intro h; simp at h
  | cons x xs ih =>
    intro h
    by_cases hx : (x.guildId == g.guildId) = true
    · simp [List.find?, hx]
    · have hx' : (x.guildId == g.guildId) = false := by
        simpa using hx
      have hxs : xs.any (fun x => x.guildId == g.guildId) = true := by
        rw [List.any_cons, hx'] at h
        simpa using h
      simpa [List.find?, hx'] using ih hxs

theorem find_append_eq_some :
    ∀ (store : GroupStore) (g : GroupConfig),
      store.any (fun x => x.guildId == g.guildId) = false →
      (store ++ [g]).find? (fun x => x.guildId == g.guildId) = some g := by
  intro store g
  induction store with
  | nil => intro _; simp [List.find?]
  | cons x xs ih =>
    intro h
    rw [List.any_cons, Bool.or_eq_false_iff] at h
    obtain ⟨hx, hxs⟩ := h
    simpa [List.find?, hx] using ih hxs

/-- Upserting an override makes it the one found for its conversation. -/
theorem getGroupConfig_putGroupConfig (store : GroupStore) (g : GroupConfig) :
    getGroupConfig (putGroupConfig store g) g.guildId = some g := by
  unfold getGroupConfig putGroupConfig
  by_cases h : store.any (fun x => x.guildId == g.guildId) = true
  · rw [if_pos h]
    exact find_replace_eq_some store g h
  · rw [if_neg h]
    exact find_append_eq_some store g (by simpa using h)

theorem getGroupConfig_put_self (store : GroupStore) (g : GroupConfig)
    (guildId : String) (hid : g.guildId = guildId) :
    getGroupConfig (putGroupConfig store g) guildId = some g := by
  subst hid
  exact getGroupConfig_putGroupConfig store g

theorem addKeywordsBatch_preserves_some (store : GroupStore) (guildId : String)
    (ks : List String) (h : (getGroupConfig store guildId).isSome = true) :
    (getGroupConfig (addKeywordsBatch store guildId ks) guildId).isSome = true := by
  obtain ⟨g, hg⟩ := Option.isSome_iff_exists.mp h
  have hgid : g.guildId = guildId := by
    have hp := List.find?_some hg
    exact eq_of_beq hp
  unfold addKeywordsBatch
  rw [hg]
  simp only [Option.getD_some]
  by_cases hlen : 0 < (addKeywordsLoop g ks).2.length
  · rw [if_pos hlen]
    have hid : (addKeywordsLoop g ks).1.guildId = guildId := by
      unfold addKeywordsLoop
      rw [addKeywordsFold_guildId ks (g, [])]
      exact hgid
    have hput := getGroupConfig_putGroupConfig store (addKeywordsLoop g ks).1
    rw [hid] at hput
    simp [hput]
  · rw [if_neg hlen]
    exact h

theorem importPreset_preserves_some (store : GroupStore) (guildId presetName : String)
    (h : (getGroupConfig store guildId).isSome = true) :
    (getGroupConfig (importPresetKeywords store guildId presetName) guildId).isSome
      = true := by
  cases hp : presetLookup presetName with
  | none => simpa [importPresetKeywords, hp] using h
  | some ks =>
    simpa [importPresetKeywords, hp]
      using addKeywordsBatch_preserves_some store guildId ks h

theorem importFold_preserves_some (guildId : String) :
    ∀ (presets : List String) (store : GroupStore),
      (getGroupConfig store guildId).isSome = true →
      (getGroupConfig
        (presets.foldl (fun s p => importPresetKeywords s guildId p) store)
        guildId).isSome = true := by
  intro presets
  induction presets with
  | nil => intro store h; exact h
  | cons p ps ih =>
    intro store h
    rw [List.foldl_cons]
    exact ih _ (importPreset_preserves_some store guildId p h)

/-- When an override is already stored, the synthesis step is a no-op. -/
theorem synthStore_eq_of_some (global : PluginConfig) (guildId : String)
    (store : GroupStore) (g : GroupConfig)
    (hg : getGroupConfig store guildId = some g) :
    synthStore global guildId store = store := by
  unfold synthStore
  rw [hg]
  simp

/-- When the conversation is not pre-enabled, the synthesis step is a no-op. -/
theorem synthStore_eq_of_not_pre (global : PluginConfig) (guildId : String)
    (store : GroupStore)
    (hpre : global.enabledGroups.contains guildId = false) :
    synthStore global guildId store = store := by
  unfold synthStore
  rw [hpre]
  simp

/-- After synthesis for a pre-enabled conversation with no stored override,
an override for it exists. -/
theorem synthStore_some_of_pre (global : PluginConfig) (guildId : String)
    (store : GroupStore)
    (hex : getGroupConfig store guildId = none)
    (hpre : global.enabledGroups.contains guildId = true) :
    (getGroupConfig (synthStore global guildId store) guildId).isSome = true := by
  unfold synthStore
  rw [hex, hpre]
  rw [if_pos (by simp)]
  have hcreated : (getGroupConfig (putGroupConfig store (defaultGroupConfig guildId))
      guildId).isSome = true := by
    rw [getGroupConfig_put_self store (defaultGroupConfig guildId) guildId rfl]
    rfl
  dsimp only
  split_ifs
  · exact importFold_preserves_some guildId global.defaultPresets _ hcreated
  · exact hcreated

/-- The synthesis step is idempotent on the store. -/
theorem synthStore_idem (global : PluginConfig) (guildId : String)
    (store : GroupStore) :
    synthStore global guildId (synthStore global guildId store)
      = synthStore global guildId store := by
  cases hex : getGroupConfig store guildId with
  | some g =>
    rw [synthStore_eq_of_some global guildId store g hex]
    exact synthStore_eq_of_some global guildId store g hex
  | none =>
    by_cases hpre : global.enabledGroups.contains guildId = true
    · obtain ⟨g1, hg1⟩ := Option.isSome_iff_exists.mp
        (synthStore_some_of_pre global guildId store hex hpre)
      exact synthStore_eq_of_some global guildId _ g1 hg1
    · have hpre' : global.enabledGroups.contains guildId = false := by
        simpa using hpre
      rw [synthStore_eq_of_not_pre global guildId store hpre']
      exact synthStore_eq_of_not_pre global guildId store hpre'

/-- C7: configuration resolution is idempotent — resolving a second time
with the same global configuration, starting from the store produced by the
first resolution, returns the identical effective configuration and leaves
the store untouched: the pre-enabled override is synthesized and default
presets imported only on the first resolution. -/
theorem resolver_idempotent (global : PluginConfig) (guildId : String)
    (store : GroupStore) :
    getMergedConfig global guildId (getMergedConfig global guildId store).2
      = getMergedConfig global guildId store := by
  by_cases hE : global.enableGroupSpecificConfig = true
  · simp only [getMergedConfig, hE, Bool.not_true, Bool.false_eq_true, if_false]
    rw [synthStore_idem]
  · have hE' : global.enableGroupSpecificConfig = false := by
      simpa using hE
    simp [getMergedConfig, hE']

end Gatekeeper
